import Mathlib

set_option maxRecDepth 4000

/-!
Verification of the QuickShot film-emulation pipeline
(`src/services/geminiService.ts`, the variant at lines 385-763, which the
specification's claims reference).

The JavaScript source computes layout geometry in IEEE doubles and floors the
results with `Math.floor` before using them for canvas draw/crop calls.  We
embed that arithmetic exactly over the rationals; since every floored quantity
here is of the form `(a * W) / b` with `a b W : ℕ`, the floor of the real value
coincides with natural-number division, so the geometry is embedded directly
in `ℕ`.  Pixel arithmetic (grayscale, blending, grain, glow) is embedded with
an exact fraction type `Frac` (integer numerator, positive integer
denominator, never normalised) together with the `Uint8ClampedArray` store
semantics (round half to even, clamp to `[0, 255]`).  `drawImage` rescaling is
modelled as centre-point nearest-neighbour resampling; the locality of that
model (each output pixel reads one source pixel near it) matches the bounded
resampling footprint of real canvas implementations.
-/

namespace QuickShot

/-- A pixel rectangle `{x, y, w, h}` in canvas coordinates, as used by both
`stitchBurst` (draw) and `processImageNatural` (blur / extract). -/
structure Rect where
  x : ℕ
  y : ℕ
  w : ℕ
  h : ℕ
deriving DecidableEq, Repr

/-! ## Stitcher geometry (`stitchBurst`)

Source: `const size = resizedCanvases[0].width; // S`,
`const padding = Math.floor(size * 0.05); const gap = Math.floor(size * 0.02);`
then `gridWidth = (size * 2) + gap + (padding * 2)` and each frame is drawn at
`x = padding + (col * (size + gap)); y = padding + (row * (size + gap))`
with size `size × size` (`col = index % 2`, `row = Math.floor(index / 2)`). -/

/-- `Math.floor(size * 0.05)` for a natural `size`: `⌊S · 5/100⌋ = S * 5 / 100`. -/
def stitchPadding (S : ℕ) : ℕ := S * 5 / 100

/-- `Math.floor(size * 0.02)` for a natural `size`: `⌊S · 2/100⌋ = S * 2 / 100`. -/
def stitchGap (S : ℕ) : ℕ := S * 2 / 100

/-- `gridWidth = (size * 2) + gap + (padding * 2)`; the grid canvas is square
(`gridHeight` is the same expression). -/
def stitchGridWidth (S : ℕ) : ℕ := S * 2 + stitchGap S + stitchPadding S * 2

/-- Draw coordinate `padding + (col * (size + gap))` for a column (or row) index. -/
def stitchCoord (S c : ℕ) : ℕ := stitchPadding S + c * (S + stitchGap S)

/-- The rectangle `stitchBurst` draws frame `i` into
(`col = i % 2`, `row = i / 2`, size `S × S`). -/
def stitchRect (S i : ℕ) : Rect :=
  ⟨stitchCoord S (i % 2), stitchCoord S (i / 2), S, S⟩

/-- The four draw rectangles of `stitchBurst`, in positional order
TL, TR, BL, BR. -/
def stitchRects (S : ℕ) : List Rect :=
  [stitchRect S 0, stitchRect S 1, stitchRect S 2, stitchRect S 3]

/-! ## Processor geometry (`processImageNatural`)

Source: `const S = canvas.width / 2.12; const uP = S * 0.05; const uG = S * 0.02;`
and the quadrant list
`{x: uP, y: uP}, {x: uP + S + uG, y: uP}, {x: uP, y: uP + S + uG},
 {x: uP + S + uG, y: uP + S + uG}`, each of size `S × S`, floored with
`Math.floor` before blur and extraction.  In exact arithmetic
`S = 25·W/53 = 100·W/212`, `uP = 5·W/212`, `uG = 2·W/212`,
`uP + S + uG = 107·W/212`, and the floor of each is natural division. -/

/-- `Math.floor(uP)` where `uP = 0.05 · (W / 2.12) = 5·W/212`. -/
def procPad (W : ℕ) : ℕ := W * 5 / 212

/-- `Math.floor(uG)` where `uG = 0.02 · (W / 2.12) = 2·W/212`. -/
def procGap (W : ℕ) : ℕ := W * 2 / 212

/-- `Math.floor(S)` where `S = W / 2.12 = 100·W/212`: the tile side recovered
by the processor. -/
def procTile (W : ℕ) : ℕ := W * 100 / 212

/-- `Math.floor(uP + S + uG) = ⌊107·W/212⌋`: the second-column (or second-row)
coordinate recovered by the processor. -/
def procFar (W : ℕ) : ℕ := W * 107 / 212

/-- Quadrant `i` of `processImageNatural`'s geometry, floored to integers
exactly where the source applies `Math.floor` (on `q.x`, `q.y`, `q.w`, `q.h`). -/
def procRect (W i : ℕ) : Rect :=
  ⟨if i % 2 = 0 then procPad W else procFar W,
   if i / 2 = 0 then procPad W else procFar W,
   procTile W, procTile W⟩

/-- The four floored quadrant rectangles of `processImageNatural`,
in positional order TL, TR, BL, BR. -/
def procRects (W : ℕ) : List Rect :=
  [procRect W 0, procRect W 1, procRect W 2, procRect W 3]

/-- Pixel membership in a rectangle. -/
def inRect (r : Rect) (x y : ℕ) : Prop :=
  r.x ≤ x ∧ x < r.x + r.w ∧ r.y ≤ y ∧ y < r.y + r.h

instance (r : Rect) (x y : ℕ) : Decidable (inRect r x y) :=
  inferInstanceAs (Decidable (_ ∧ _ ∧ _ ∧ _))

/-! ## The safety downscale of `processImageNatural`

Source: `const MAX_WIDTH = 1600; if (targetWidth > MAX_WIDTH) { const scale =
MAX_WIDTH / targetWidth; targetWidth = MAX_WIDTH; targetHeight = img.height *
scale; }`.  Assigning the fractional `targetHeight` to `canvas.height`
truncates it to an integer, so the resulting height is `⌊h·1600/w⌋`. -/

/-- The working canvas dimensions chosen by `processImageNatural` for an input
image of size `w × h`. -/
def targetDims (w h : ℕ) : ℕ × ℕ :=
  if 1600 < w then (1600, h * 1600 / w) else (w, h)

/-! ## The random quadrant shuffle

Source: `const indices = [0, 1, 2, 3].sort(() => 0.5 - Math.random()).slice(0, 2);`.
`Array.prototype.sort` on a small array is insertion sort in mainstream
engines: for each element, scan the sorted prefix from its end and shift while
`comparator(prefix[j], element) > 0`.  The comparator `0.5 - Math.random()` is
positive with probability 1/2, independently per call; we model each call as a
fair coin drawn from a boolean tape (`true` = "positive", i.e. shift). -/

/-- Insert `a` into the reversed sorted prefix (head = rightmost element),
consuming one coin per comparison: on `true` the compared element shifts past
`a`, on `false` (comparator ≤ 0) `a` settles to its right.  Returns the new
reversed prefix and the unconsumed tape. -/
def insertRC (a : ℕ) : List ℕ → List Bool → List ℕ × List Bool
  | [], cs => ([a], cs)
  | b :: rest, cs =>
      if cs.headD false then
        (b :: (insertRC a rest cs.tail).1, (insertRC a rest cs.tail).2)
      else (a :: b :: rest, cs.tail)

/-- Insertion sort driven by the coin tape, accumulating the sorted prefix in
reversed order. -/
def insSortRev : List ℕ → List ℕ → List Bool → List ℕ
  | acc, [], _ => acc
  | acc, a :: as, cs =>
      insSortRev (insertRC a acc cs).1 as (insertRC a acc cs).2

/-- `array.sort(() => 0.5 - Math.random())` modelled with the coin tape `cs`. -/
def jsRandomSort (l : List ℕ) (cs : List Bool) : List ℕ :=
  (insSortRev [] l cs).reverse

/-- `[0, 1, 2, 3].sort(() => 0.5 - Math.random()).slice(0, 2)`: the two
quadrant indices chosen for the region blur. -/
def pickBlurIndices (cs : List Bool) : List ℕ :=
  (jsRandomSort [0, 1, 2, 3] cs).take 2

/-- All boolean tapes of length `n`.  Sorting `[0,1,2,3]` consumes at most
`1 + 2 + 3 = 6` coins, so the distribution of `pickBlurIndices` is the uniform
distribution over `allTapes 6`. -/
def allTapes : ℕ → List (List Bool)
  | 0 => [[]]
  | n + 1 => (allTapes n).flatMap fun t => [false :: t, true :: t]

/-- The number of length-6 tapes under which the blur picks the unordered pair
`{i, j}`; dividing by 64 gives its probability. -/
def pairCount (i j : ℕ) : ℕ :=
  (allTapes 6).countP fun cs =>
    pickBlurIndices cs == [i, j] || pickBlurIndices cs == [j, i]

/-! ## Exact fraction arithmetic and the `Uint8ClampedArray` store -/

/-- An unnormalised fraction `n / d`.  All constructions keep `d` positive, so
comparison by cross-multiplication is valid; no gcd normalisation is ever
performed, keeping every operation kernel-computable. -/
structure Frac where
  n : ℤ
  d : ℤ
deriving DecidableEq, Repr

/-- Embed an integer as a fraction. -/
def Frac.ofInt (k : ℤ) : Frac := ⟨k, 1⟩

/-- Embed a natural number as a fraction. -/
def Frac.ofNat (k : ℕ) : Frac := ⟨(k : ℤ), 1⟩

instance : Add Frac := ⟨fun a b => ⟨a.n * b.d + b.n * a.d, a.d * b.d⟩⟩

instance : Sub Frac := ⟨fun a b => ⟨a.n * b.d - b.n * a.d, a.d * b.d⟩⟩

instance : Mul Frac := ⟨fun a b => ⟨a.n * b.n, a.d * b.d⟩⟩

instance : LE Frac := ⟨fun a b => a.n * b.d ≤ b.n * a.d⟩

instance (a b : Frac) : Decidable (a ≤ b) :=
  inferInstanceAs (Decidable (a.n * b.d ≤ b.n * a.d))

/-- Round the real value `n / d` half to even.  (On `ℤ`, `/` and `%` are
Euclidean division; for `d > 0` they are floor division and its nonnegative
remainder.) -/
def Frac.roundHE (x : Frac) : ℤ :=
  if 2 * (x.n % x.d) < x.d then x.n / x.d
  else if x.d < 2 * (x.n % x.d) then x.n / x.d + 1
  else if x.n / x.d % 2 = 0 then x.n / x.d else x.n / x.d + 1

/-- Assignment to a `Uint8ClampedArray` slot: round the real value half to
even and clamp into `[0, 255]`. -/
def Frac.clampRound (x : Frac) : ℕ :=
  (max 0 (min 255 x.roundHE)).toNat

/-- Clamp a fractional value into `[0, 255]` without rounding (used between
filter primitives and inside the grayscale contrast branch). -/
def clamp255 (x : Frac) : Frac :=
  if x ≤ Frac.ofInt 0 then Frac.ofInt 0
  else if Frac.ofInt 255 ≤ x then Frac.ofInt 255
  else x

/-- An RGB pixel; canvas pixels are opaque throughout the pipeline, so alpha is
not tracked. -/
structure Pixel where
  r : ℕ
  g : ℕ
  b : ℕ
deriving DecidableEq, Repr

/-- A gray pixel with all three channels equal. -/
def Pixel.gray (v : ℕ) : Pixel := ⟨v, v, v⟩

/-- An image as a total pixel function on canvas coordinates. -/
def Img : Type := ℕ → ℕ → Pixel

/-- The film-stock selector (`src/types.ts`):
`'HIPPO_400' | 'HIPPO_800' | 'WILLIAM_400' | 'WILLIAM_H'`. -/
inductive FilterType
  | HIPPO_400
  | HIPPO_800
  | WILLIAM_400
  | WILLIAM_H
deriving DecidableEq, Repr

/-- `filterType.includes('WILLIAM')`: the monochrome stocks. -/
def FilterType.isBW : FilterType → Bool
  | .WILLIAM_400 => true
  | .WILLIAM_H => true
  | _ => false

/-! ## `applyRobustGrayscaleAndContrast`

Source: per pixel, `avg = r*0.299 + g*0.587 + b*0.114`; if `contrast !== 1.0`
then `avg = (avg - 128) * contrast + 128` clamped to `[0, 255]`; then all three
channels are assigned `avg` (a `Uint8ClampedArray` store). -/

/-- Numerator of the luminosity average `0.299·r + 0.587·g + 0.114·b`
(denominator 1000). -/
def lumNum (p : Pixel) : ℤ := 299 * p.r + 587 * p.g + 114 * p.b

/-- The channel value written by `applyRobustGrayscaleAndContrast` with
contrast factor `k` (the `contrast !== 1.0` test compares values). -/
def grayChannel (k : Frac) (p : Pixel) : ℕ :=
  let avg : Frac := ⟨lumNum p, 1000⟩
  if k.n = k.d then avg.clampRound
  else (clamp255 ((avg - Frac.ofInt 128) * k + Frac.ofInt 128)).clampRound

/-- The pixel written by `applyRobustGrayscaleAndContrast`. -/
def grayPixel (k : Frac) (p : Pixel) : Pixel := Pixel.gray (grayChannel k p)

/-- Modelled from the spec ("each pixel's RGB set to a luminosity-weighted
average (`0.299R + 0.587G + 0.114B`), followed by a linear contrast stretch
around the midpoint (`(v−128)×k+128`, clamped to [0,255])"): the channel value
the specification prescribes for the monochrome pass, with the stretch always
applied.  Kept separate from `grayChannel` (translated from the code, which
skips the stretch when `k = 1`) so the two can be compared. -/
def specMonoChannel (k : Frac) (p : Pixel) : ℕ :=
  (clamp255 ((⟨lumNum p, 1000⟩ - Frac.ofInt 128) * k + Frac.ofInt 128)).clampRound

/-- The contrast factor passed to the final B&W enforcement pass:
`1.0` for `WILLIAM_400`, `1.25` for `WILLIAM_H`. -/
def monoContrast : FilterType → Frac
  | .WILLIAM_H => ⟨5, 4⟩
  | _ => ⟨1, 1⟩

/-! ## CSS filter primitives (`ctx.filter` strings of the colour pass)

Channel values live on the 0..255 scale.  `contrast(c)` is the linear transfer
with slope `c` about the midpoint 127.5; `brightness(k)` scales; `saturate(s)`
and `sepia(m)` are the colour matrices of the filter-effects specification.
Each primitive clamps its result into the representable range. -/

/-- `contrast(c)` on one channel. -/
def contrastF (c v : Frac) : Frac := clamp255 ((v - ⟨255, 2⟩) * c + ⟨255, 2⟩)

/-- `brightness(k)` on one channel. -/
def brightnessF (k v : Frac) : Frac := clamp255 (v * k)

/-- `saturate(s)` colour matrix (luminance weights 0.213 / 0.715 / 0.072). -/
def saturateF (s r g b : Frac) : Frac × Frac × Frac :=
  let w1 : Frac := ⟨213, 1000⟩
  let w2 : Frac := ⟨715, 1000⟩
  let w3 : Frac := ⟨72, 1000⟩
  let lum := w1 * r + w2 * g + w3 * b
  (clamp255 (lum + s * (r - lum)),
   clamp255 (lum + s * (g - lum)),
   clamp255 (lum + s * (b - lum)))

/-- `sepia(m)` colour matrix, as interpolation between the identity and the
full sepia matrix. -/
def sepiaF (m r g b : Frac) : Frac × Frac × Frac :=
  let one : Frac := ⟨1, 1⟩
  let sr := ⟨393, 1000⟩ * r + ⟨769, 1000⟩ * g + ⟨189, 1000⟩ * b
  let sg := ⟨349, 1000⟩ * r + ⟨686, 1000⟩ * g + ⟨168, 1000⟩ * b
  let sb := ⟨272, 1000⟩ * r + ⟨534, 1000⟩ * g + ⟨131, 1000⟩ * b
  (clamp255 ((one - m) * r + m * sr),
   clamp255 ((one - m) * g + m * sg),
   clamp255 ((one - m) * b + m * sb))

/-- The filtered-draw result of the colour pass: the `ctx.filter` chain of the
selected stock applied to one pixel, then stored to the canvas.
`HIPPO_400`: `contrast(1.08) saturate(1.15) brightness(1.02)`;
`HIPPO_800`: `contrast(1.1) saturate(1.2) brightness(1.05) sepia(0.15)`;
`WILLIAM_400`: `contrast(1.1) brightness(1.0)`;
`WILLIAM_H`: `contrast(1.2) brightness(1.1)`. -/
def filteredPixel (φ : FilterType) (p : Pixel) : Pixel :=
  let r0 := Frac.ofNat p.r
  let g0 := Frac.ofNat p.g
  let b0 := Frac.ofNat p.b
  match φ with
  | .HIPPO_400 =>
      let r1 := contrastF ⟨27, 25⟩ r0
      let g1 := contrastF ⟨27, 25⟩ g0
      let b1 := contrastF ⟨27, 25⟩ b0
      let s := saturateF ⟨23, 20⟩ r1 g1 b1
      ⟨(brightnessF ⟨51, 50⟩ s.1).clampRound,
       (brightnessF ⟨51, 50⟩ s.2.1).clampRound,
       (brightnessF ⟨51, 50⟩ s.2.2).clampRound⟩
  | .HIPPO_800 =>
      let r1 := contrastF ⟨11, 10⟩ r0
      let g1 := contrastF ⟨11, 10⟩ g0
      let b1 := contrastF ⟨11, 10⟩ b0
      let s := saturateF ⟨6, 5⟩ r1 g1 b1
      let r2 := brightnessF ⟨21, 20⟩ s.1
      let g2 := brightnessF ⟨21, 20⟩ s.2.1
      let b2 := brightnessF ⟨21, 20⟩ s.2.2
      let t := sepiaF ⟨3, 20⟩ r2 g2 b2
      ⟨t.1.clampRound, t.2.1.clampRound, t.2.2.clampRound⟩
  | .WILLIAM_400 =>
      ⟨(contrastF ⟨11, 10⟩ r0).clampRound,
       (contrastF ⟨11, 10⟩ g0).clampRound,
       (contrastF ⟨11, 10⟩ b0).clampRound⟩
  | .WILLIAM_H =>
      ⟨(brightnessF ⟨11, 10⟩ (contrastF ⟨6, 5⟩ r0)).clampRound,
       (brightnessF ⟨11, 10⟩ (contrastF ⟨6, 5⟩ g0)).clampRound,
       (brightnessF ⟨11, 10⟩ (contrastF ⟨6, 5⟩ b0)).clampRound⟩

/-- `screen` blend of one channel (0..255 scale). -/
def screenB (cb cs : Frac) : Frac := cb + cs - cb * cs * ⟨1, 255⟩

/-- `overlay` blend of one channel (0..255 scale). -/
def overlayB (cb cs : Frac) : Frac :=
  if cb + cb ≤ ⟨255, 1⟩ then cb * cs * ⟨2, 255⟩
  else ⟨255, 1⟩ - (⟨255, 1⟩ - cb) * (⟨255, 1⟩ - cs) * ⟨2, 255⟩

/-- Source-over compositing of one channel with blend function `B`, source
colour `cs`, effective source alpha `α`, over the opaque backdrop `cb`,
followed by the canvas store. -/
def compositeChannel (B : Frac → Frac → Frac) (alpha : Frac) (cb cs : ℕ) : ℕ :=
  ((Frac.ofInt 1 - alpha) * Frac.ofNat cb + alpha * B (Frac.ofNat cb) (Frac.ofNat cs)).clampRound

/-- The translucent overlay fill after the filtered draw:
`HIPPO_400`: `screen` with `rgba(20, 30, 40, 0.05)`;
`HIPPO_800`: `overlay` with `rgba(255, 200, 150, 0.08)`;
the monochrome stocks fill no overlay. -/
def overlayFill (φ : FilterType) (p : Pixel) : Pixel :=
  match φ with
  | .HIPPO_400 =>
      ⟨compositeChannel screenB ⟨1, 20⟩ p.r 20,
       compositeChannel screenB ⟨1, 20⟩ p.g 30,
       compositeChannel screenB ⟨1, 20⟩ p.b 40⟩
  | .HIPPO_800 =>
      ⟨compositeChannel overlayB ⟨2, 25⟩ p.r 255,
       compositeChannel overlayB ⟨2, 25⟩ p.g 200,
       compositeChannel overlayB ⟨2, 25⟩ p.b 150⟩
  | _ => p

/-- The whole colour pass (step 2 of `processImageNatural`) on one pixel:
filtered draw of the snapshot back onto the canvas, then the overlay fill. -/
def colorPass (φ : FilterType) (p : Pixel) : Pixel := overlayFill φ (filteredPixel φ p)

/-! ## Grain (step 3)

A 128 × 128 noise tile is generated with `val = 120 + Math.random() *
grainIntensity` on all three channels and alpha `grainOpacity`, tiled across
the canvas as a repeating pattern and composited with `overlay` blend at
`globalAlpha = 0.6`.  The per-cell `Math.random()` draws form the grain tape. -/

/-- `grainIntensity` and `grainOpacity` per stock. -/
def grainParams : FilterType → ℕ × ℕ
  | .HIPPO_400 => (30, 30)
  | .HIPPO_800 => (45, 40)
  | .WILLIAM_400 => (50, 50)
  | .WILLIAM_H => (60, 60)

/-- The stored noise value of one grain-tile cell, given its random draw `t`. -/
def grainValue (φ : FilterType) (t : Frac) : ℕ :=
  (Frac.ofInt 120 + t * Frac.ofNat (grainParams φ).1).clampRound

/-- One channel of the grain composite: `overlay` blend with effective source
alpha `(grainOpacity/255) · 0.6`. -/
def grainChannel (φ : FilterType) (t : Frac) (cb : ℕ) : ℕ :=
  compositeChannel overlayB (⟨((grainParams φ).2 : ℤ), 255⟩ * ⟨3, 5⟩) cb (grainValue φ t)

/-- The grain pass on the pixel at `(x, y)`; the repeating pattern aligns the
tile to the origin, so the cell is `(x % 128, y % 128)`. -/
def grainPass (φ : FilterType) (tape : ℕ → ℕ → Frac) (x y : ℕ) (p : Pixel) : Pixel :=
  let t := tape (x % 128) (y % 128)
  ⟨grainChannel φ t p.r, grainChannel φ t p.g, grainChannel φ t p.b⟩

/-! ## Rescaling, blur (step 1.5) and glow (step 4) -/

/-- Centre-point nearest-neighbour resampling: the source index sampled for
destination index `i` when scaling a row of `src` pixels to `dst` pixels. -/
def nnSrc (dst src i : ℕ) : ℕ := (2 * i + 1) * src / (2 * dst)

/-- The base render `ctx.drawImage(img, 0, 0, targetWidth, targetHeight)`:
the decoded image resampled to the working canvas size. -/
def resample (img : Img) (srcW srcH dstW dstH : ℕ) : Img :=
  fun x y => img (nnSrc dstW srcW x) (nnSrc dstH srcH y)

/-- `Math.max(2, Math.floor(iw * 0.15))`: the small-canvas edge used by
`applyRegionBlur`. -/
def blurSmall (iw : ℕ) : ℕ := max 2 (iw * 15 / 100)

/-- `applyRegionBlur`: the floored region is copied into a small canvas
(downscale) and drawn back over itself (upscale), clipped to the region, which
resamples—and thereby softens—only the pixels inside the rectangle.  Returns
unchanged pixels outside the rectangle and, per the `iw < 1 || ih < 1` guard,
whole canvases with a degenerate rectangle. -/
def blurRect (r : Rect) (img : Img) : Img := fun x y =>
  if inRect r x y ∧ 1 ≤ r.w ∧ 1 ≤ r.h then
    let sw := blurSmall r.w
    let sh := blurSmall r.h
    let sx := nnSrc r.w sw (x - r.x)
    let sy := nnSrc r.h sh (y - r.y)
    img (r.x + nnSrc sw r.w sx) (r.y + nnSrc sh r.h sy)
  else img x y

/-- The canvas position the glow pass reads for output column `x` on a canvas
`w` pixels wide: the composition of the upscale from the quarter-size glow
canvas (`glowCanvas.width = canvas.width / 4`) with its downscale sampling. -/
def glowSrc (w x : ℕ) : ℕ :=
  let gw := w / 4
  (2 * nnSrc w gw x + 1) * w / (2 * gw)

/-- One channel of the glow composite: `screen` blend at `globalAlpha = 0.25`
of the quarter-scaled canvas over itself. -/
def glowChannel (cb cs : ℕ) : ℕ :=
  ((⟨3, 4⟩ : Frac) * Frac.ofNat cb + (⟨1, 4⟩ : Frac) * screenB (Frac.ofNat cb) (Frac.ofNat cs)).clampRound

/-- The glow pass (skipped for `WILLIAM_H` by the caller). -/
def glowPass (w h : ℕ) (img : Img) : Img := fun x y =>
  let c := img x y
  let s := img (glowSrc w x) (glowSrc h y)
  ⟨glowChannel c.r s.r, glowChannel c.g s.g, glowChannel c.b s.b⟩

/-! ## The assembled pixel pipeline of `processImageNatural` -/

/-- The canvas after the base render and the region blur (steps 1 and 1.5):
the decoded image resampled to the safety-capped size, then the two
tape-selected quadrants blurred in sequence. -/
def blurredStage (img : Img) (srcW srcH : ℕ) (coins : List Bool) : Img :=
  (pickBlurIndices coins).foldl
    (fun im i => blurRect (procRect (targetDims srcW srcH).1 i) im)
    (resample img srcW srcH (targetDims srcW srcH).1 (targetDims srcW srcH).2)

/-- The canvas after the colour pass and the grain pass (steps 2 and 3), both
pointwise on the blurred canvas. -/
def grainedStage (φ : FilterType) (img : Img) (srcW srcH : ℕ) (coins : List Bool)
    (tape : ℕ → ℕ → Frac) : Img :=
  fun x y => grainPass φ tape x y (colorPass φ (blurredStage img srcW srcH coins x y))

/-- The composite canvas just before the final B&W enforcement (steps 1-4):
the grained canvas, with the glow composite on top except for `WILLIAM_H`
(`if (filterType !== 'WILLIAM_H')`). -/
def prePass (φ : FilterType) (img : Img) (srcW srcH : ℕ) (coins : List Bool)
    (tape : ℕ → ℕ → Frac) : Img :=
  if φ = .WILLIAM_H then grainedStage φ img srcW srcH coins tape
  else
    glowPass (targetDims srcW srcH).1 (targetDims srcW srcH).2
      (grainedStage φ img srcW srcH coins tape)

/-- The final processed composite: the pre-pass followed, for the monochrome
stocks, by `applyRobustGrayscaleAndContrast` (step 5) with the stock's
contrast factor. -/
def processedComposite (φ : FilterType) (img : Img) (srcW srcH : ℕ)
    (coins : List Bool) (tape : ℕ → ℕ → Frac) : Img :=
  if φ.isBW then
    fun x y => grayPixel (monoContrast φ) (prePass φ img srcW srcH coins tape x y)
  else prePass φ img srcW srcH coins tape

/-- Extracted frame `i` (step 6): the floored quadrant rectangle cropped from
the composite (`drawImage` at equal source and destination size is a pixel
copy), with the grayscale pass re-applied at contrast `1.0` for the monochrome
stocks. -/
def processedFrame (φ : FilterType) (img : Img) (srcW srcH : ℕ)
    (coins : List Bool) (tape : ℕ → ℕ → Frac) (i : ℕ) : Img :=
  fun x y =>
    if φ.isBW then
      grayPixel ⟨1, 1⟩ (processedComposite φ img srcW srcH coins tape
        ((procRect (targetDims srcW srcH).1 i).x + x)
        ((procRect (targetDims srcW srcH).1 i).y + y))
    else
      processedComposite φ img srcW srcH coins tape
        ((procRect (targetDims srcW srcH).1 i).x + x)
        ((procRect (targetDims srcW srcH).1 i).y + y)

/-! ## Control-flow model of `stitchBurst`

`stitchBurst` validates the frame count, starts decoding all four images,
resizes each into a scratch canvas, allocates the grid canvas, and draws.  The
event trace records decode attempts and canvas allocations so that "rejects
before decoding and before allocating" is expressible. -/

/-- A burst frame as the stitcher sees it: whether it decodes, and its decoded
dimensions. -/
structure BurstFrame where
  decodes : Bool
  w : ℕ
  h : ℕ
deriving DecidableEq, Repr

/-- Observable resource events of a `stitchBurst` run. -/
inductive StitchEv
  | decodeImage
  | allocCanvas
deriving DecidableEq, Repr

/-- The rejection reasons of `stitchBurst`: `"Burst requires exactly 4
images"`, an image decode failure, and `"No context"`. -/
inductive StitchError
  | invalidInput
  | decodeFailed
  | noContext
deriving DecidableEq, Repr

/-- The resolved proof sheet: grid canvas size and the four draw rectangles. -/
structure StitchOut where
  width : ℕ
  height : ℕ
  draws : List Rect
deriving DecidableEq, Repr

/-- `resizeImage`: `scale = Math.min(1, maxWidth / img.width)` with
`maxWidth = 800`; the truncated canvas width `⌊w · scale⌋` equals
`min w 800` (also at `w = 0`, where the scale is capped at 1). -/
def resizedW (f : BurstFrame) : ℕ := min f.w 800

/-- `resizeImage`: the truncated canvas height `⌊h · scale⌋`. -/
def resizedH (f : BurstFrame) : ℕ := if f.w ≤ 800 then f.h else f.h * 800 / f.w

/-- The control flow of `stitchBurst`: result plus resource-event trace. -/
def stitchBurstRun (frames : List BurstFrame) (ctxOk : Bool) :
    Except StitchError StitchOut × List StitchEv :=
  if frames.length ≠ 4 then (.error .invalidInput, [])
  else
    let decodeEvs := frames.map fun _ => StitchEv.decodeImage
    if frames.any fun f => !f.decodes then (.error .decodeFailed, decodeEvs)
    else
      let resizeEvs := frames.map fun _ => StitchEv.allocCanvas
      let S := resizedW (frames.headD ⟨false, 0, 0⟩)
      let evs := decodeEvs ++ resizeEvs ++ [StitchEv.allocCanvas]
      if !ctxOk then (.error .noContext, evs)
      else (.ok ⟨stitchGridWidth S, stitchGridWidth S, stitchRects S⟩, evs)

/-! ## Control-flow model of `processImageNatural`

Every scratch canvas context (`getContext('2d')`), and the grain pattern
(`createPattern`), is acquired behind a nullable check.  The environment
records which acquisitions succeed; the output records which optional
sub-steps actually ran and how many frames were pushed. -/

/-- Rejection reasons of `processImageNatural`: image decode failure
(`img.onerror`) and `"Could not get canvas context"` for the main canvas. -/
inductive ProcError
  | decodeFailed
  | noCanvasContext
deriving DecidableEq, Repr

/-- Which fallible acquisitions succeed during a `processImageNatural` run. -/
structure ProcEnv where
  decodeOk : Bool
  mainCtx : Bool
  tempCtx : Bool
  grainCtx : Bool
  patternOk : Bool
  glowCtx : Bool
  extractCtx : List Bool
deriving DecidableEq, Repr

/-- What a resolved `processImageNatural` run actually did. -/
structure ProcOut where
  colorGraded : Bool
  grainApplied : Bool
  glowApplied : Bool
  frameCount : ℕ
deriving DecidableEq, Repr

/-- The control flow of `processImageNatural`: the run rejects only on decode
failure or a missing main-canvas context; the colour pass runs only if the
snapshot context is acquired (`if (tCtx)`), grain only if both the grain
context and the pattern are acquired (`if (grainCtx)` / `if (pattern)`), glow
only for non-`WILLIAM_H` stocks with an acquired context (`if (gCtx)`), and a
frame is pushed per extraction canvas whose context is acquired
(`if (tempCtx)`). -/
def processRun (φ : FilterType) (env : ProcEnv) : Except ProcError ProcOut :=
  if !env.decodeOk then .error .decodeFailed
  else if !env.mainCtx then .error .noCanvasContext
  else
    .ok { colorGraded := env.tempCtx
        , grainApplied := env.grainCtx && env.patternOk
        , glowApplied := if φ = .WILLIAM_H then false else env.glowCtx
        , frameCount := env.extractCtx.count true }

/-! ## Concrete instances used by counterexamples and witnesses -/

/-- A 10 × 10 test image with a distinct gray value per pixel. -/
def inputGradient : Img := fun x y => Pixel.gray (x + 10 * y)

/-- A constant grain tape: every `Math.random()` draw of the grain synthesis
returns 1/2. -/
def tapeHalf : ℕ → ℕ → Frac := fun _ _ => ⟨1, 2⟩

/-- A quadrant-selection coin tape under which the shuffle leaves `[0,1,2,3]`
in order, so quadrants 0 and 1 are blurred. -/
def coinsTL : List Bool := [false, false, false]

/-- A quadrant-selection coin tape under which the shuffle yields
`[2,0,1,3]`, so quadrants 2 and 0 are blurred. -/
def coinsBL : List Bool := [false, true, true, false]

/-- An environment in which everything succeeds except the 2D context of the
fourth frame-extraction canvas. -/
def envDroppedFrame : ProcEnv :=
  ⟨true, true, true, true, true, true, [true, true, true, false]⟩

/-- An environment in which every acquisition succeeds. -/
def envAllOk : ProcEnv :=
  ⟨true, true, true, true, true, true, [true, true, true, true]⟩

/-! # Theorems -/

/-! ## Store-semantics lemmas -/

/-- Unfolding lemma for fraction subtraction. -/
theorem Frac.sub_def (a b : Frac) : a - b = ⟨a.n * b.d - b.n * a.d, a.d * b.d⟩ := rfl

/-- Unfolding lemma for fraction addition. -/
theorem Frac.add_def (a b : Frac) : a + b = ⟨a.n * b.d + b.n * a.d, a.d * b.d⟩ := rfl

/-- Unfolding lemma for fraction multiplication. -/
theorem Frac.mul_def (a b : Frac) : a * b = ⟨a.n * b.n, a.d * b.d⟩ := rfl

/-- Unfolding lemma for fraction comparison. -/
theorem Frac.le_def (a b : Frac) : (a ≤ b) = (a.n * b.d ≤ b.n * a.d) := rfl

/-- The clamped store never exceeds 255. -/
theorem Frac.clampRound_le (x : Frac) : x.clampRound ≤ 255 := by
  unfold Frac.clampRound
  omega

/-- Storing an integer value `v ∈ [0, 255]` represented with any positive
denominator returns `v` unchanged. -/
theorem Frac.clampRound_exact (v : ℕ) (d : ℤ) (hd : 0 < d) (hv : v ≤ 255) :
    Frac.clampRound ⟨(v : ℤ) * d, d⟩ = v := by
  unfold Frac.clampRound Frac.roundHE
  simp only
  rw [Int.mul_ediv_cancel _ (ne_of_gt hd), Int.mul_emod_left]
  rw [if_pos (by omega)]
  omega

/-- A value with nonpositive numerator (and positive denominator) stores as 0. -/
theorem Frac.clampRound_of_nonpos (x : Frac) (hd : 0 < x.d) (hn : x.n ≤ 0) :
    x.clampRound = 0 := by
  unfold Frac.clampRound Frac.roundHE
  have hdf := Int.ediv_add_emod x.n x.d
  have hr0 := Int.emod_nonneg x.n (ne_of_gt hd)
  have hrd := Int.emod_lt_of_pos x.n hd
  have hf : x.n / x.d ≤ 0 := by nlinarith [hdf, hr0]
  split
  · omega
  · split
    · have : x.n / x.d < 0 := by nlinarith
      omega
    · have : x.n / x.d < 0 := by nlinarith
      split <;> omega

/-- A value at least 255 (with positive denominator) stores as 255. -/
theorem Frac.clampRound_of_ge (x : Frac) (hd : 0 < x.d) (hn : 255 * x.d ≤ x.n) :
    x.clampRound = 255 := by
  unfold Frac.clampRound Frac.roundHE
  have hdf := Int.ediv_add_emod x.n x.d
  have hr0 := Int.emod_nonneg x.n (ne_of_gt hd)
  have hrd := Int.emod_lt_of_pos x.n hd
  have hf : 255 ≤ x.n / x.d := by nlinarith
  split
  · omega
  · split
    · omega
    · split <;> omega

/-- The intermediate clamp into `[0, 255]` is absorbed by the clamped store:
clamping first and then storing equals storing directly. -/
theorem clampRound_clamp255 (x : Frac) (hd : 0 < x.d) :
    (clamp255 x).clampRound = x.clampRound := by
  unfold clamp255
  split
  · rename_i h0
    have hx : x.n ≤ 0 := by
      simpa [instLEFrac, Frac.ofInt] using h0
    rw [Frac.clampRound_of_nonpos x hd hx]
    rfl
  · split
    · rename_i hgt h255
      have hx : 255 * x.d ≤ x.n := by
        simpa [instLEFrac, Frac.ofInt] using h255
      rw [Frac.clampRound_of_ge x hd hx]
      rfl
    · rfl

/-! ## Grayscale lemmas -/

/-- The grayscale channel is always a valid byte. -/
theorem grayChannel_le (k : Frac) (p : Pixel) : grayChannel k p ≤ 255 := by
  unfold grayChannel
  split <;> exact Frac.clampRound_le _

/-- On a gray pixel with byte value `v`, the grayscale pass at contrast `1.0`
returns `v`: the luminosity weights sum to exactly 1000/1000, the contrast
branch is skipped, and the store is exact. -/
theorem grayChannel_one_gray (v : ℕ) (hv : v ≤ 255) :
    grayChannel ⟨1, 1⟩ (Pixel.gray v) = v := by
  unfold grayChannel
  rw [if_pos rfl]
  have h : lumNum (Pixel.gray v) = (v : ℤ) * 1000 := by
    unfold lumNum Pixel.gray
    push_cast
    ring
  simp only [h]
  exact Frac.clampRound_exact v 1000 (by norm_num) hv

/-- The grayscale pass at contrast `1.0` is the identity on gray pixels with
byte channels — re-applying it to an extracted frame cannot change it. -/
theorem grayPixel_one_gray (v : ℕ) (hv : v ≤ 255) :
    grayPixel ⟨1, 1⟩ (Pixel.gray v) = Pixel.gray v := by
  unfold grayPixel
  rw [grayChannel_one_gray v hv]

/-- The code's grayscale channel (which skips the contrast stretch when the
factor equals 1) coincides with the specification's always-stretched formula at
both call sites (`k = 1.0` and `k = 1.25`). -/
theorem grayChannel_eq_specMono (k : Frac) (hk : k = ⟨1, 1⟩ ∨ k = ⟨5, 4⟩) (p : Pixel) :
    grayChannel k p = specMonoChannel k p := by
  rcases hk with rfl | rfl
  · unfold grayChannel specMonoChannel
    rw [if_pos rfl]
    have hE : ((⟨lumNum p, 1000⟩ : Frac) - Frac.ofInt 128) * ⟨1, 1⟩ + Frac.ofInt 128 =
        (⟨lumNum p, 1000⟩ : Frac) := by
      simp only [Frac.sub_def, Frac.mul_def, Frac.add_def, Frac.ofInt, Frac.mk.injEq]
      constructor <;> ring
    rw [hE, clampRound_clamp255 _ (by norm_num)]
  · unfold grayChannel specMonoChannel
    rw [if_neg (by norm_num)]

/-! ## Claim C1: stitcher/processor geometry agreement -/

/-- Claim C1, counterexample.  For a burst of four equal 740-px-wide square
frames (resized tile width `S = 740 ≤ 800`), the stitched proof sheet is
1568 px wide, so the developer does not downscale it (`1568 ≤ 1600`), yet the
four floored quadrant rectangles recovered by `processImageNatural` differ
from the rectangles at which `stitchBurst` drew the frames: the stitcher drew
at padding `⌊0.05·740⌋ = 37` with tile 740, while the processor recovers
`⌊5·1568/212⌋ = 36` with tile `⌊100·1568/212⌋ = 739`. -/
theorem c1_counterexample :
    stitchGridWidth 740 = 1568 ∧ stitchGridWidth 740 ≤ 1600 ∧ (740 : ℕ) ≤ 800 ∧
    procRects (stitchGridWidth 740) ≠ stitchRects 740 := by
  refine ⟨by decide, by decide, by decide, ?_⟩
  decide

/-- Claim C1, amended.  The quadrant rectangles recovered by
`processImageNatural` equal the rectangles `stitchBurst` drew exactly when the
resized tile width is a multiple of 100 (equivalently, when `0.05·S` and
`0.02·S` are integers, so no flooring error accumulates); in that case the
proof-sheet width is `2.12·S` exactly and dividing by 2.12 recovers the tile,
padding and gap without drift.  For other tile widths the recovered
rectangles can be off by one or two pixels (`c1_counterexample`). -/
theorem c1_amended (S : ℕ) (hpos : 0 < S) (hS : S ≤ 800) (hdiv : 100 ∣ S)
    (hW : stitchGridWidth S ≤ 1600) :
    procRects (stitchGridWidth S) = stitchRects S := by
  obtain ⟨k, rfl⟩ := hdiv
  have hP : stitchPadding (100 * k) = 5 * k := by unfold stitchPadding; omega
  have hG : stitchGap (100 * k) = 2 * k := by unfold stitchGap; omega
  have hGW : stitchGridWidth (100 * k) = 212 * k := by
    unfold stitchGridWidth; rw [hP, hG]; ring
  have h1 : procPad (212 * k) = 5 * k := by unfold procPad; omega
  have h3 : procTile (212 * k) = 100 * k := by unfold procTile; omega
  have h4 : procFar (212 * k) = 107 * k := by unfold procFar; omega
  rw [hGW]
  simp only [procRects, stitchRects, procRect, stitchRect, stitchCoord,
    h1, h3, h4, hP, hG, List.cons.injEq, Rect.mk.injEq]
  norm_num
  omega

/-- Witness for `c1_amended` at the concrete tile width `S = 700`
(a burst of four 700 × 700 frames; proof sheet 1484 px wide). -/
theorem c1_amended_witness :
    procRects (stitchGridWidth 700) = stitchRects 700 :=
  c1_amended 700 (by norm_num) (by norm_num) ⟨7, rfl⟩ (by decide)

/-! ## Claim C3: quadrant tiling of the simple geometry -/

/-- Claim C3, counterexample.  At canvas width `W = 100` the floored quadrant
rectangles are *not* separated by exactly the floored gap: the second column
starts at `⌊107·100/212⌋ = 50` while the first column ends at
`⌊5·100/212⌋ + ⌊100·100/212⌋ = 2 + 47 = 49`, a separation of 1 even though the
floored gap is `⌊2·100/212⌋ = 0`. -/
theorem c3_counterexample :
    0 < (100 : ℕ) ∧
    procFar 100 ≠ procPad 100 + procTile 100 + procGap 100 := by
  exact ⟨by decide, by decide⟩

/-- Claim C3, amended.  For every canvas width `W > 0`, all four floored
quadrant rectangles have the identical integer size `procTile W × procTile W`;
adjacent rectangles never overlap and are separated by at least the floored
gap and at most the floored gap plus 2 (flooring the three addends
independently can lose up to two pixels relative to flooring their sum); and
all four rectangles lie inside the `W × W` canvas square. -/
theorem c3_amended (W : ℕ) (hpos : 0 < W) :
    (∀ r ∈ procRects W, r.w = procTile W ∧ r.h = procTile W) ∧
    procPad W + procTile W + procGap W ≤ procFar W ∧
    procFar W ≤ procPad W + procTile W + procGap W + 2 ∧
    procFar W + procTile W ≤ W := by
  refine ⟨?_, ?_, ?_, ?_⟩
  · intro r hr
    simp only [procRects, procRect, List.mem_cons, List.not_mem_nil, or_false] at hr
    rcases hr with rfl | rfl | rfl | rfl <;> exact ⟨rfl, rfl⟩
  · unfold procPad procTile procGap procFar; omega
  · unfold procPad procTile procGap procFar; omega
  · unfold procTile procFar; omega

/-- Witness for `c3_amended` at the concrete canvas width `W = 500`. -/
theorem c3_amended_witness :
    (∀ r ∈ procRects 500, r.w = procTile 500 ∧ r.h = procTile 500) ∧
    procPad 500 + procTile 500 + procGap 500 ≤ procFar 500 ∧
    procFar 500 ≤ procPad 500 + procTile 500 + procGap 500 + 2 ∧
    procFar 500 + procTile 500 ≤ 500 :=
  c3_amended 500 (by norm_num)

/-! ## Claim C5: early rejection of a wrong frame count -/

/-- Claim C5.  For every frame list whose length is not 4, `stitchBurst`
rejects with the invalid-input error and its event trace is empty: no image
decode is started and no canvas is allocated. -/
theorem c5_invalid_count (frames : List BurstFrame) (ctxOk : Bool)
    (h : frames.length ≠ 4) :
    stitchBurstRun frames ctxOk = (.error .invalidInput, []) := by
  unfold stitchBurstRun
  rw [if_pos h]

/-- Witness for `c5_invalid_count`: a 3-frame burst is rejected up front. -/
theorem c5_invalid_count_witness :
    stitchBurstRun [⟨true, 640, 480⟩, ⟨true, 640, 480⟩, ⟨true, 640, 480⟩] true =
      (.error .invalidInput, []) :=
  c5_invalid_count _ true (by decide)

/-! ## Claim C6: fail-fast of `processImageNatural` -/

/-- Claim C6, counterexample.  With every acquisition succeeding except the 2D
context of the fourth frame-extraction canvas, `processImageNatural` resolves
successfully — it does not fail — and the resolved result carries only 3
frames instead of 4: the failed sub-step is silently skipped. -/
theorem c6_counterexample :
    processRun .HIPPO_400 envDroppedFrame = .ok ⟨true, true, true, 3⟩ ∧
    (3 : ℕ) ≠ 4 := by
  exact ⟨rfl, by decide⟩

/-- Claim C6, amended.  `processImageNatural` rejects only on image-decode
failure or a missing main-canvas context.  Failures of the optional sub-step
acquisitions (colour-pass snapshot context, grain context, grain pattern, glow
context, frame-extraction contexts) never reject: the run resolves and each
such sub-step is silently skipped, and the resolved result carries one frame
per successfully acquired extraction context (so exactly 4 frames only when
all four extraction contexts are acquired). -/
theorem c6_amended (φ : FilterType) (env : ProcEnv) :
    (env.decodeOk = true → env.mainCtx = true →
      processRun φ env = .ok
        ⟨env.tempCtx, env.grainCtx && env.patternOk,
         if φ = .WILLIAM_H then false else env.glowCtx,
         env.extractCtx.count true⟩) ∧
    (env.decodeOk = false → processRun φ env = .error .decodeFailed) ∧
    (env.decodeOk = true → env.mainCtx = false →
      processRun φ env = .error .noCanvasContext) := by
  refine ⟨?_, ?_, ?_⟩ <;> intro h1 <;> try intro h2
  · unfold processRun
    rw [h1, h2]
    rfl
  · unfold processRun
    rw [h1]
    rfl
  · unfold processRun
    rw [h1, h2]
    rfl

/-- Witness for `c6_amended`: with every acquisition succeeding the run
resolves with all sub-steps applied and exactly 4 frames. -/
theorem c6_amended_witness :
    processRun .HIPPO_400 envAllOk = .ok ⟨true, true, true, 4⟩ :=
  (c6_amended .HIPPO_400 envAllOk).1 rfl rfl

/-! ## Claim C7: the safety downscale -/

/-- Claim C7, counterexample.  A 100 × 2000 input is not downscaled at all (its
width does not exceed the 1600 ceiling), so the working canvas height is
2000 px — the canvas dimensions do *not* both stay within the ceiling-derived
bound. -/
theorem c7_counterexample :
    targetDims 100 2000 = (100, 2000) ∧ ¬ (targetDims 100 2000).2 ≤ 1600 := by
  exact ⟨by decide, by decide⟩

/-- Claim C7, amended.  The safety cap constrains only the width: the working
canvas width never exceeds 1600; an input wider than 1600 is scaled to width
exactly 1600 with proportionally (floored) scaled height before any pass runs,
and an input not wider than 1600 is used at its original size.  The height is
never enlarged, but it is not bounded by the ceiling (`c7_counterexample`). -/
theorem c7_amended (w h : ℕ) :
    (targetDims w h).1 ≤ 1600 ∧
    (targetDims w h).2 ≤ h ∧
    (w ≤ 1600 → targetDims w h = (w, h)) ∧
    (1600 < w → targetDims w h = (1600, h * 1600 / w)) := by
  unfold targetDims
  by_cases hw : 1600 < w
  · rw [if_pos hw]
    refine ⟨le_refl _, ?_, fun hle => absurd hle (by omega), fun _ => rfl⟩
    calc h * 1600 / w ≤ h * w / w := Nat.div_le_div_right (Nat.mul_le_mul_left h (by omega))
      _ ≤ h := by
          rcases Nat.eq_zero_or_pos w with h0 | h0
          · simp [h0]
          · rw [Nat.mul_div_cancel _ h0]
  · rw [if_neg hw]
    exact ⟨by omega, le_refl _, fun _ => rfl, fun hgt => absurd hgt hw⟩

/-- Witness for `c7_amended` at the concrete oversized input 3200 × 6400
(downscaled to 1600 × 3200 before any pass). -/
theorem c7_amended_witness :
    (targetDims 3200 6400).1 ≤ 1600 ∧ targetDims 3200 6400 = (1600, 6400 * 1600 / 3200) :=
  ⟨(c7_amended 3200 6400).1, (c7_amended 3200 6400).2.2.2 (by norm_num)⟩

/-! ## Claim C2: extracted frames are crops of the composite -/

/-- Claim C2.  For every filter, input image, geometry and randomness, each
extracted frame is pixel-identical (at the raw pixel level, before encoding)
to the crop of the final processed composite at quadrant `i`'s floored
rectangle.  For the colour stocks the extraction is a pure crop; for the
monochrome stocks the re-applied grayscale pass at contrast `1.0` is the
identity on the already-gray composite pixels, so the equality still holds. -/
theorem c2_round_trip_crop (φ : FilterType) (img : Img) (srcW srcH : ℕ)
    (coins : List Bool) (tape : ℕ → ℕ → Frac) (i x y : ℕ) :
    processedFrame φ img srcW srcH coins tape i x y =
      processedComposite φ img srcW srcH coins tape
        ((procRect (targetDims srcW srcH).1 i).x + x)
        ((procRect (targetDims srcW srcH).1 i).y + y) := by
  unfold processedFrame
  by_cases hbw : φ.isBW = true
  · rw [if_pos hbw]
    unfold processedComposite
    rw [if_pos hbw]
    exact grayPixel_one_gray _ (grayChannel_le _ _)
  · rw [if_neg hbw]

/-! ## Claim C4: the monochrome pass -/

/-- For a monochrome stock, every composite pixel is the gray pixel whose
common channel value is the specification's luminosity-plus-contrast formula
applied to the pre-pass pixel. -/
theorem composite_mono_spec (φ : FilterType) (hφ : φ.isBW = true) (img : Img)
    (srcW srcH : ℕ) (coins : List Bool) (tape : ℕ → ℕ → Frac) (x y : ℕ) :
    processedComposite φ img srcW srcH coins tape x y =
      Pixel.gray (specMonoChannel (monoContrast φ)
        (prePass φ img srcW srcH coins tape x y)) := by
  unfold processedComposite
  rw [if_pos hφ]
  unfold grayPixel
  rw [grayChannel_eq_specMono (monoContrast φ) (by cases φ <;> simp [monoContrast])]

/-- For a monochrome stock, every extracted-frame pixel is likewise the gray
pixel given by the specification's formula at the cropped position. -/
theorem frame_mono_spec (φ : FilterType) (hφ : φ.isBW = true) (img : Img)
    (srcW srcH : ℕ) (coins : List Bool) (tape : ℕ → ℕ → Frac) (i x y : ℕ) :
    processedFrame φ img srcW srcH coins tape i x y =
      Pixel.gray (specMonoChannel (monoContrast φ)
        (prePass φ img srcW srcH coins tape
          ((procRect (targetDims srcW srcH).1 i).x + x)
          ((procRect (targetDims srcW srcH).1 i).y + y))) := by
  unfold processedFrame
  rw [if_pos hφ, composite_mono_spec φ hφ]
  exact grayPixel_one_gray _ (Frac.clampRound_le _)

/-- Claim C4.  For the monochrome stocks, every pixel of the final composite
and of every extracted frame has `R = G = B` (it is `Pixel.gray` of a single
channel value), and that channel value is exactly the specification's
luminosity-weighted average `0.299R + 0.587G + 0.114B` of the pre-pass pixel
followed by the linear contrast stretch `(v − 128)·k + 128` clamped to
`[0, 255]`, with `k = 1` for `WILLIAM_400` and `k = 5/4` for `WILLIAM_H`
(`specMonoChannel` is written from the spec's words; the code's `grayChannel`,
which skips the stretch when `k = 1`, agrees with it). -/
theorem c4_mono_invariant (img : Img) (srcW srcH : ℕ) (coins : List Bool)
    (tape : ℕ → ℕ → Frac) (x y : ℕ) :
    (processedComposite .WILLIAM_400 img srcW srcH coins tape x y =
       Pixel.gray (specMonoChannel ⟨1, 1⟩
         (prePass .WILLIAM_400 img srcW srcH coins tape x y))) ∧
    (processedComposite .WILLIAM_H img srcW srcH coins tape x y =
       Pixel.gray (specMonoChannel ⟨5, 4⟩
         (prePass .WILLIAM_H img srcW srcH coins tape x y))) ∧
    (∀ i, processedFrame .WILLIAM_400 img srcW srcH coins tape i x y =
       Pixel.gray (specMonoChannel ⟨1, 1⟩
         (prePass .WILLIAM_400 img srcW srcH coins tape
           ((procRect (targetDims srcW srcH).1 i).x + x)
           ((procRect (targetDims srcW srcH).1 i).y + y)))) ∧
    (∀ i, processedFrame .WILLIAM_H img srcW srcH coins tape i x y =
       Pixel.gray (specMonoChannel ⟨5, 4⟩
         (prePass .WILLIAM_H img srcW srcH coins tape
           ((procRect (targetDims srcW srcH).1 i).x + x)
           ((procRect (targetDims srcW srcH).1 i).y + y)))) :=
  ⟨composite_mono_spec .WILLIAM_400 rfl img srcW srcH coins tape x y,
   composite_mono_spec .WILLIAM_H rfl img srcW srcH coins tape x y,
   fun i => frame_mono_spec .WILLIAM_400 rfl img srcW srcH coins tape i x y,
   fun i => frame_mono_spec .WILLIAM_H rfl img srcW srcH coins tape i x y⟩

/-! ## Claim C8: the random quadrant selection -/

/-- Whatever the comparator coins, inserting an element yields a permutation
of the element plus the prefix. -/
theorem insertRC_perm (a : ℕ) :
    ∀ (l : List ℕ) (cs : List Bool), ((insertRC a l cs).1).Perm (a :: l) := by
  intro l
  induction l with
  | nil => intro cs; simp [insertRC]
  | cons b rest ih =>
    intro cs
    unfold insertRC
    by_cases h : cs.headD false = true
    · rw [if_pos h]
      exact ((ih cs.tail).cons b).trans (List.Perm.swap a b rest)
    · rw [if_neg h]

/-- Whatever the coins, the tape-driven insertion sort permutes its input. -/
theorem insSortRev_perm :
    ∀ (as acc : List ℕ) (cs : List Bool), (insSortRev acc as cs).Perm (acc ++ as) := by
  intro as
  induction as with
  | nil => intro acc cs; simp [insSortRev]
  | cons a as ih =>
    intro acc cs
    unfold insSortRev
    have h1 := ih (insertRC a acc cs).1 (insertRC a acc cs).2
    have h2 := (insertRC_perm a acc cs).append_right as
    exact h1.trans (h2.trans (by simpa using (List.perm_middle).symm))

/-- The random-comparator sort always returns a permutation of `[0,1,2,3]`. -/
theorem jsRandomSort_perm (cs : List Bool) :
    (jsRandomSort [0, 1, 2, 3] cs).Perm [0, 1, 2, 3] := by
  unfold jsRandomSort
  exact (List.reverse_perm _).trans (by simpa using insSortRev_perm [0, 1, 2, 3] [] cs)

/-- Claim C8, counterexample.  The selection is *not* uniform over the six
unordered pairs: the pair `{0, 1}` is chosen on 24 of the 64 equiprobable
length-6 coin tapes (probability 3/8) while `{2, 3}` is chosen on only 4 of
them (probability 1/16). -/
theorem c8_counterexample : pairCount 0 1 ≠ pairCount 2 3 := by decide

/-- Claim C8, amended.  The region-blur step always selects two *distinct*
quadrant indices from `{0, 1, 2, 3}` (the sort, however inconsistent its
comparator, returns a permutation), but the six unordered pairs are not
equiprobable: under the fair-coin comparator the distribution over
`({0,1}, {0,2}, {0,3}, {1,2}, {1,3}, {2,3})` is `(24, 12, 6, 12, 6, 4)` out of
64 — none of which equals the uniform 64/6. -/
theorem c8_amended :
    (∀ cs : List Bool, ∃ x y rest,
        jsRandomSort [0, 1, 2, 3] cs = x :: y :: rest ∧
        pickBlurIndices cs = [x, y] ∧ x ≠ y ∧ x < 4 ∧ y < 4) ∧
    (pairCount 0 1, pairCount 0 2, pairCount 0 3,
     pairCount 1 2, pairCount 1 3, pairCount 2 3) = (24, 12, 6, 12, 6, 4) := by
  constructor
  · intro cs
    have hperm := jsRandomSort_perm cs
    have hlen : (jsRandomSort [0, 1, 2, 3] cs).length = 4 := by
      rw [hperm.length_eq]
      rfl
    rcases hl : jsRandomSort [0, 1, 2, 3] cs with _ | ⟨x, _ | ⟨y, rest⟩⟩
    · rw [hl] at hlen; simp at hlen
    · rw [hl] at hlen; simp at hlen
    · rw [hl] at hperm
      have hnd : (x :: y :: rest).Nodup := hperm.nodup_iff.mpr (by decide)
      have hxy : x ≠ y := by
        intro he
        exact (List.nodup_cons.mp hnd).1 (he ▸ List.mem_cons_self y rest)
      have hx4 : x ∈ [0, 1, 2, 3] := hperm.subset (by simp)
      have hy4 : y ∈ [0, 1, 2, 3] := hperm.subset (by simp)
      refine ⟨x, y, rest, rfl, ?_, hxy, ?_, ?_⟩
      · rw [pickBlurIndices, hl]
        rfl
      · simp at hx4; omega
      · simp at hy4; omega
  · decide

/-! ## Claim C9: determinism modulo the quadrant randomness -/

/-- A pixel outside the blurred rectangle is untouched by the region blur. -/
theorem blurRect_not_mem (r : Rect) (img : Img) (x y : ℕ) (h : ¬ inRect r x y) :
    blurRect r img x y = img x y := by
  unfold blurRect
  rw [if_neg (fun hc => h hc.1)]

/-- A pixel outside every selected quadrant is untouched by the whole blur
fold. -/
theorem foldl_blurRect_outside (W : ℕ) (sel : List ℕ) (base : Img) (x y : ℕ)
    (h : ∀ i ∈ sel, ¬ inRect (procRect W i) x y) :
    (sel.foldl (fun im i => blurRect (procRect W i) im) base) x y = base x y := by
  induction sel generalizing base with
  | nil => rfl
  | cons a as ih =>
    simp only [List.foldl_cons]
    rw [ih (blurRect (procRect W a) base) fun i hi => h i (List.mem_cons_of_mem a hi)]
    exact blurRect_not_mem _ _ _ _ (h a (List.mem_cons_self a as))

/-- Two runs that differ only in their quadrant-selection coins agree on the
blurred canvas at every pixel outside both selections. -/
theorem blurredStage_agree (img : Img) (srcW srcH : ℕ) (cs1 cs2 : List Bool) (x y : ℕ)
    (h : ∀ i ∈ pickBlurIndices cs1 ++ pickBlurIndices cs2,
        ¬ inRect (procRect (targetDims srcW srcH).1 i) x y) :
    blurredStage img srcW srcH cs1 x y = blurredStage img srcW srcH cs2 x y := by
  unfold blurredStage
  rw [foldl_blurRect_outside _ _ _ _ _ fun i hi => h i (List.mem_append_left _ hi),
      foldl_blurRect_outside _ _ _ _ _ fun i hi => h i (List.mem_append_right _ hi)]

/-- The colour and grain passes are pointwise, so the agreement extends to the
grained canvas. -/
theorem grainedStage_agree (φ : FilterType) (img : Img) (srcW srcH : ℕ)
    (cs1 cs2 : List Bool) (tape : ℕ → ℕ → Frac) (x y : ℕ)
    (h : ∀ i ∈ pickBlurIndices cs1 ++ pickBlurIndices cs2,
        ¬ inRect (procRect (targetDims srcW srcH).1 i) x y) :
    grainedStage φ img srcW srcH cs1 tape x y = grainedStage φ img srcW srcH cs2 tape x y := by
  unfold grainedStage
  rw [blurredStage_agree img srcW srcH cs1 cs2 x y h]

/-- Claim C9, counterexample.  Two runs on the same 10 × 10 input with the
same grain tape, one blurring quadrants `{0, 1}` and the other `{2, 0}`,
produce different pixels at `(9, 0)` — a position *outside every quadrant
rectangle of both runs* (it lies in the right padding): the glow pass samples
the quarter-scaled canvas at a point inside quadrant 1, which is blurred in
one run only, and smears that difference outside the quadrants.  The output
therefore does not "differ only in which 2 quadrants are blurred". -/
theorem c9_counterexample :
    (∀ i ∈ pickBlurIndices coinsTL ++ pickBlurIndices coinsBL,
        ¬ inRect (procRect (targetDims 10 10).1 i) 9 0) ∧
    processedComposite .HIPPO_400 inputGradient 10 10 coinsTL tapeHalf 9 0 ≠
      processedComposite .HIPPO_400 inputGradient 10 10 coinsBL tapeHalf 9 0 := by
  constructor
  · decide
  · decide

/-- Claim C9, amended.  (1) The pipeline is deterministic given its random
draws: runs with equal coin tapes and equal grain tapes on the same input are
pixel-identical.  (2) With only the quadrant-selection coins varying, the two
runs agree at every pixel that lies outside the quadrant rectangles selected
by either run *and* whose glow-pass sample point also lies outside them; the
quadrant geometry itself is a function of the canvas width alone, so it never
varies.  (Inside the glow halo of a differently-blurred quadrant the outputs
can differ — `c9_counterexample`.) -/
theorem c9_amended (φ : FilterType) (img : Img) (srcW srcH : ℕ)
    (cs1 cs2 : List Bool) (tape : ℕ → ℕ → Frac) :
    (cs1 = cs2 → ∀ x y,
      processedComposite φ img srcW srcH cs1 tape x y =
        processedComposite φ img srcW srcH cs2 tape x y) ∧
    (∀ x y,
      (∀ i ∈ pickBlurIndices cs1 ++ pickBlurIndices cs2,
          ¬ inRect (procRect (targetDims srcW srcH).1 i) x y ∧
          ¬ inRect (procRect (targetDims srcW srcH).1 i)
              (glowSrc (targetDims srcW srcH).1 x) (glowSrc (targetDims srcW srcH).2 y)) →
      processedComposite φ img srcW srcH cs1 tape x y =
        processedComposite φ img srcW srcH cs2 tape x y) := by
  constructor
  · rintro rfl x y
    rfl
  · intro x y h
    have hpre : prePass φ img srcW srcH cs1 tape x y = prePass φ img srcW srcH cs2 tape x y := by
      unfold prePass
      by_cases hφ : φ = .WILLIAM_H
      · rw [if_pos hφ, if_pos hφ]
        exact grainedStage_agree φ img srcW srcH cs1 cs2 tape x y fun i hi => (h i hi).1
      · rw [if_neg hφ, if_neg hφ]
        unfold glowPass
        rw [grainedStage_agree φ img srcW srcH cs1 cs2 tape x y fun i hi => (h i hi).1,
            grainedStage_agree φ img srcW srcH cs1 cs2 tape _ _ fun i hi => (h i hi).2]
    unfold processedComposite
    by_cases hbw : φ.isBW = true
    · rw [if_pos hbw, if_pos hbw, hpre]
    · rw [if_neg hbw, if_neg hbw, hpre]

/-- Witness for `c9_amended` at the pixel `(9, 9)` of the same two concrete
runs: both it and its glow sample point lie outside every selected quadrant,
so the runs agree there. -/
theorem c9_amended_witness :
    processedComposite .HIPPO_400 inputGradient 10 10 coinsTL tapeHalf 9 9 =
      processedComposite .HIPPO_400 inputGradient 10 10 coinsBL tapeHalf 9 9 :=
  (c9_amended .HIPPO_400 inputGradient 10 10 coinsTL coinsBL tapeHalf).2 9 9 (by decide)

/-! ## Claim C10: the stitcher's happy path -/

/-- `h * c / w ≤ h` whenever `c ≤ w`: a downscale never enlarges. -/
theorem mul_div_le_of_le (h c w : ℕ) (hc : c ≤ w) : h * c / w ≤ h := by
  calc h * c / w ≤ h * w / w := Nat.div_le_div_right (Nat.mul_le_mul_left h hc)
    _ ≤ h := by
        rcases Nat.eq_zero_or_pos w with h0 | h0
        · simp [h0]
        · rw [Nat.mul_div_cancel _ h0]

/-- Claim C10.  For any four decodable frames — equal or unequal sizes —
`stitchBurst` succeeds: it decodes all four, allocates the four resize
canvases and the grid canvas, derives the tile size `S` solely from the first
frame's resized width `min w₀ 800`, draws every frame stretched to the same
`S × S` square, and produces a square proof sheet of side
`2·S + ⌊0.02·S⌋ + 2·⌊0.05·S⌋`.  Every resize is bounded by 800 px and never
upscales in either dimension. -/
theorem c10_stitch_success (f0 f1 f2 f3 : BurstFrame) (ctxOk : Bool)
    (h0 : f0.decodes = true) (h1 : f1.decodes = true)
    (h2 : f2.decodes = true) (h3 : f3.decodes = true) (hc : ctxOk = true) :
    stitchBurstRun [f0, f1, f2, f3] ctxOk =
      (.ok ⟨stitchGridWidth (min f0.w 800), stitchGridWidth (min f0.w 800),
            stitchRects (min f0.w 800)⟩,
       [.decodeImage, .decodeImage, .decodeImage, .decodeImage,
        .allocCanvas, .allocCanvas, .allocCanvas, .allocCanvas, .allocCanvas]) ∧
    (∀ r ∈ stitchRects (min f0.w 800), r.w = min f0.w 800 ∧ r.h = min f0.w 800) ∧
    (∀ f ∈ [f0, f1, f2, f3], resizedW f ≤ 800 ∧ resizedW f ≤ f.w ∧ resizedH f ≤ f.h) := by
  refine ⟨?_, ?_, ?_⟩
  · unfold stitchBurstRun
    rw [if_neg (by simp)]
    rw [if_neg (by simp [h0, h1, h2, h3])]
    rw [if_neg (by simp [hc])]
    rfl
  · intro r hr
    simp only [stitchRects, stitchRect, List.mem_cons, List.not_mem_nil, or_false] at hr
    rcases hr with rfl | rfl | rfl | rfl <;> exact ⟨rfl, rfl⟩
  · intro f _
    refine ⟨Nat.min_le_right _ _, Nat.min_le_left _ _, ?_⟩
    unfold resizedH
    split
    · exact le_refl _
    · exact mul_div_le_of_le f.h 800 f.w (by omega)

/-- Witness for `c10_stitch_success` on four frames of four different sizes:
the tile size is `min 1000 800 = 800` and the proof sheet is 1696 px square. -/
theorem c10_stitch_success_witness :
    stitchBurstRun [⟨true, 1000, 500⟩, ⟨true, 300, 300⟩, ⟨true, 800, 123⟩, ⟨true, 50, 60⟩]
        true =
      (.ok ⟨1696, 1696, stitchRects 800⟩,
       [.decodeImage, .decodeImage, .decodeImage, .decodeImage,
        .allocCanvas, .allocCanvas, .allocCanvas, .allocCanvas, .allocCanvas]) :=
  (c10_stitch_success ⟨true, 1000, 500⟩ ⟨true, 300, 300⟩ ⟨true, 800, 123⟩ ⟨true, 50, 60⟩
    true rfl rfl rfl rfl rfl).1

end QuickShot
